import Mathlib

/-!
Verification of the OptoRuntime stub / counter layer
(`src/hotspot/share/opto/runtime.hpp`).

The header contains the full code of `NamedCounter` (constructor,
accessors, `set_next` with its guard) and the inline
`stub_name(OptoStubId)`.  The other operations (the stub generator,
the multi-dimensional allocators, the memoized signature queries,
exception rethrow and deoptimization marking) are only declared in the
header; their bodies live in `runtime.cpp`, which is not part of the
sources.  Those operations are modelled from the specification, each
such definition carrying a doc comment starting `Modelled from the
spec:`.
-/

namespace OptoRuntime

/-! ## NamedCounter (fully from the header, lines 59-98) -/

/-- `NamedCounter::CounterTag` (header lines 61-65). -/
inductive CounterTag where
  | NoTag
  | LockCounter
  | EliminatedLockCounter
deriving DecidableEq, Repr

/-- A heap of C strings: an address is an index into `cells`.
`os::strdup` appends a fresh cell; `free`/mutation of a cell is
modelled by `write`. -/
structure StrHeap where
  cells : List String
deriving Repr

def StrHeap.valid (h : StrHeap) (a : Nat) : Prop := a < h.cells.length

def StrHeap.read (h : StrHeap) (a : Nat) : String := h.cells.getD a ""

def StrHeap.write (h : StrHeap) (a : Nat) (s : String) : StrHeap :=
  ⟨h.cells.set a s⟩

/-- `os::strdup(n)`: allocate a fresh cell holding a copy of the string
at address `a`, returning the new heap and the fresh address. -/
def StrHeap.strdup (h : StrHeap) (a : Nat) : StrHeap × Nat :=
  (⟨h.cells ++ [h.read a]⟩, h.cells.length)

/-- The `NamedCounter` record (header lines 67-71): name pointer
(`none` models `nullptr`), count, tag, and next pointer (an address of
another counter, `none` for `nullptr`). -/
structure NamedCounter where
  nameP : Option Nat
  count : Int
  tag : CounterTag
  nextP : Option Nat
deriving DecidableEq, Repr

/-- The constructor `NamedCounter(const char* n, CounterTag tag)`
(header lines 74-78):
`_name(n == nullptr ? nullptr : os::strdup(n)), _count(0), _tag(tag),
_next(nullptr)`.  Returns the updated string heap together with the
fresh counter. -/
def NamedCounter.init (h : StrHeap) (n : Option Nat) (tag : CounterTag) :
    StrHeap × NamedCounter :=
  match n with
  | none => (h, { nameP := none, count := 0, tag := tag, nextP := none })
  | some a =>
      let p := h.strdup a
      (p.1, { nameP := some p.2, count := 0, tag := tag, nextP := none })

/-- Calling the constructor with the `tag` argument omitted: the
declaration (header line 74) supplies the default value `NoTag`. -/
def NamedCounter.initDefault (h : StrHeap) (n : Option Nat) :
    StrHeap × NamedCounter :=
  NamedCounter.init h n CounterTag.NoTag

/-- `NamedCounter::name()` (header line 86). -/
def NamedCounter.name (c : NamedCounter) : Option Nat := c.nameP

/-- `NamedCounter::next()` (header line 92). -/
def NamedCounter.next (c : NamedCounter) : Option Nat := c.nextP

/-- `NamedCounter::set_next` (header lines 93-96).  The body first runs
`assert(_next == nullptr || next == nullptr, "already set")`; a failed
assertion is modelled as `none`, otherwise the updated counter is
returned. -/
def NamedCounter.set_next (c : NamedCounter) (nx : Option Nat) :
    Option NamedCounter :=
  if c.nextP = none ∨ nx = none then some { c with nextP := nx } else none

/-! ## Named counter registry (C6)

The global list head `_named_counters` is declared at header line 347;
the code populating it (`OptoRuntime::new_named_counter`) lives in
`runtime.cpp`, which is not among the sources. -/

/-- The registry: `counters.get i` is the counter at address `i`
(allocation order), `head` is `_named_counters`. -/
structure Registry where
  counters : List NamedCounter
  head : Option Nat
deriving Repr

def Registry.emptyReg : Registry := ⟨[], none⟩

/-- The `_next` pointer of the counter at address `i`. -/
def Registry.nextOf (r : Registry) (i : Nat) : Option Nat :=
  match r.counters[i]? with
  | none => none
  | some c => c.nextP

/-- Modelled from the spec: `OptoRuntime::new_named_counter` (declared
at header line 352, body in `runtime.cpp`) allocates a fresh counter
via the `NamedCounter` constructor, links it into the global list
exactly once by `set_next(head)` followed by publishing it as the new
head.  Returns `none` if the `set_next` guard would fail. -/
def new_named_counter (r : Registry) (h : StrHeap) (n : Option Nat)
    (tag : CounterTag) : Option (Registry × StrHeap × Nat) :=
  let p := NamedCounter.init h n tag
  match p.2.set_next r.head with
  | none => none
  | some c =>
      some (⟨r.counters ++ [c], some r.counters.length⟩, p.1, r.counters.length)

/-- Registry well-formedness: every `_next` pointer goes strictly
backwards in allocation order (newer counters link to older ones), and
the head is a valid address. -/
def Registry.wf (r : Registry) : Prop :=
  (∀ i (c : NamedCounter), r.counters[i]? = some c →
    ∀ j, c.nextP = some j → j < i) ∧
  (∀ hd, r.head = some hd → hd < r.counters.length)

/-- Follow `_next` links for `k` steps starting at address `i`;
`none` when the walk leaves the list (a null link or a dangling
address). -/
def Registry.stepN (r : Registry) : Nat → Nat → Option Nat
  | 0, i => some i
  | k + 1, i =>
      match r.nextOf i with
      | none => none
      | some j => Registry.stepN r k j

/-! ## Stub names (C1, C9)

`OptoStubId` (header lines 107-111) assigns `NO_STUBID = -1` and
consecutive ids `0, 1, ...` up to the exclusive bound `NUM_STUBIDS`,
whose value comes from the `C2_STUBS_DO` macro expansion in
`stubDeclarations.hpp` (not among the sources).  We therefore
parameterize by the list `names` of declared stub names, with
`NUM_STUBIDS = names.length`. -/

def NO_STUBID : Int := -1

def NUM_STUBIDS (names : List String) : Int := names.length

/-- `OptoRuntime::stub_name(OptoStubId id)` (header lines 208-211):
`assert(id > NO_STUBID && id < NUM_STUBIDS); return _stub_names[(int)id]`.
A failed assertion is modelled as `none`. -/
def stub_name (names : List String) (id : Int) : Option String :=
  if NO_STUBID < id ∧ id < NUM_STUBIDS names then
    some (names.getD id.toNat "")
  else
    none

/-- Modelled from the spec: the reverse lookup `resolve(name)` of §8
("resolve(name(id)) == id") maps a declared name to its stub id by
scanning the name table for the first match. -/
def resolve (names : List String) (s : String) : Int :=
  (names.indexOf s : Nat)

/-! ## Multi-dimensional array allocation (C2)

`multianewarray2_C` .. `multianewarray5_C` and `multianewarrayN_C` are
declared at header lines 155-159; their bodies live in `runtime.cpp`,
which is not among the sources. -/

/-- A Java array value: a node carries its sub-arrays (or, at the
innermost level, one leaf per element). -/
inductive JArray where
  | leaf : JArray
  | node : List JArray → JArray
deriving Repr

/-- Number of heap nodes an array occupies (used to account allocated
memory). -/
def JArray.size : JArray → Nat
  | JArray.leaf => 1
  | JArray.node xs => 1 + (xs.attach.map (fun p => JArray.size p.1)).sum
decreasing_by
  have h := List.sizeOf_lt_of_mem p.2
  simp only [JArray.node.sizeOf_spec]
  omega

/-- Build the nested array for the given (already non-negative)
dimension lengths: the outermost dimension first. -/
def multi_allocate : List Nat → JArray
  | [] => JArray.leaf
  | n :: rest => JArray.node (List.replicate n (multi_allocate rest))

/-- All sub-arrays at nesting depth `i` of an array (depth `0` is the
array itself). -/
def allAtLevel : JArray → Nat → List JArray
  | a, 0 => [a]
  | JArray.leaf, _ + 1 => []
  | JArray.node xs, i + 1 => (xs.map (fun x => allAtLevel x i)).flatten

/-- The managed heap, reduced to what the claim observes: the amount of
reserved memory. -/
structure Heap where
  allocated : Nat
deriving DecidableEq, Repr

/-- Managed exceptions raised by slow-path helpers and routed through
exception dispatch. -/
inductive ManagedException where
  | negativeArraySize
deriving DecidableEq, Repr

/-- Modelled from the spec: `OptoRuntime::multianewarrayN_C` (declared
at header line 159, body in `runtime.cpp`) checks every dimension
length; any negative length raises a managed exception before any
memory is reserved, otherwise the nested array is allocated and the
result has the given length at every level. -/
def multianewarrayN_C (dims : List Int) (h : Heap) :
    Except ManagedException JArray × Heap :=
  if dims.any (fun d => d < 0) then
    (Except.error ManagedException.negativeArraySize, h)
  else
    let a := multi_allocate (dims.map Int.toNat)
    (Except.ok a, ⟨h.allocated + a.size⟩)

/-- Modelled from the spec: `OptoRuntime::multianewarray2_C` (header
line 155) is the arity-2 instance of the N-ary allocator. -/
def multianewarray2_C (len1 len2 : Int) (h : Heap) :
    Except ManagedException JArray × Heap :=
  multianewarrayN_C [len1, len2] h

/-- Modelled from the spec: `OptoRuntime::multianewarray3_C` (header
line 156). -/
def multianewarray3_C (len1 len2 len3 : Int) (h : Heap) :
    Except ManagedException JArray × Heap :=
  multianewarrayN_C [len1, len2, len3] h

/-- Modelled from the spec: `OptoRuntime::multianewarray4_C` (header
line 157). -/
def multianewarray4_C (len1 len2 len3 len4 : Int) (h : Heap) :
    Except ManagedException JArray × Heap :=
  multianewarrayN_C [len1, len2, len3, len4] h

/-- Modelled from the spec: `OptoRuntime::multianewarray5_C` (header
line 158). -/
def multianewarray5_C (len1 len2 len3 len4 len5 : Int) (h : Heap) :
    Except ManagedException JArray × Heap :=
  multianewarrayN_C [len1, len2, len3, len4, len5] h

/-! ## Stub generation (C3, C4)

`OptoRuntime::generate(ciEnv*)` is declared at header line 202; its
body lives in `runtime.cpp`, which is not among the sources. -/

/-- The per-stub entry-point fields (`_new_instance_Java` etc., header
lines 121-129) as a table from stub id to an optional entry address,
plus the once-only phase flag. -/
structure StubTable where
  entries : Nat → Option Nat
  generated : Bool

def StubTable.initTable : StubTable := ⟨fun _ => none, false⟩

/-- Modelled from the spec: install each stub in id order using the
code-emission environment `env` (which yields the generated entry
address, or `none` on failure, e.g. code-cache exhaustion); stop at the
first failure. Returns whether all stubs were generated together with
the updated table. -/
def installAll (env : Nat → Option Nat) (es : Nat → Option Nat) :
    List Nat → Bool × (Nat → Option Nat)
  | [] => (true, es)
  | id :: rest =>
      match env id with
      | none => (false, es)
      | some a => installAll env (fun j => if j = id then some a else es j) rest

/-- Modelled from the spec: `OptoRuntime::generate` runs the startup
generation phase exactly once: if the phase already ran it is a no-op
returning success; otherwise it generates every stub in `ids`,
returning `true` exactly when all stubs were generated successfully. -/
def generate (env : Nat → Option Nat) (ids : List Nat) (st : StubTable) :
    Bool × StubTable :=
  if st.generated then
    (true, st)
  else
    let p := installAll env st.entries ids
    (p.1, ⟨p.2, p.1⟩)

/-! ## Memoized signature queries (C5)

The `xxx_Type()` functions are declared at header lines 250-344; their
bodies live in `runtime.cpp`, which is not among the sources. -/

/-- A call signature in the compiler's type algebra: ordered domain and
range of value-type tags. -/
structure TypeFunc where
  domain : List Nat
  range : List Nat
deriving DecidableEq, Repr

/-- The state backing one `xxx_Type()` query: a store of constructed
`TypeFunc` objects (an index is a pointer, so pointer equality is index
equality) and the cached pointer. -/
structure SigState where
  store : List TypeFunc
  cache : Option Nat
deriving DecidableEq, Repr

def SigState.initSig : SigState := ⟨[], none⟩

/-- Modelled from the spec: an `xxx_Type()` query (e.g.
`new_instance_Type`, header line 250): the first call constructs the
signature `build` and caches a pointer to it; every later call returns
the cached pointer unchanged. -/
def type_query (build : TypeFunc) (s : SigState) : Nat × SigState :=
  match s.cache with
  | some p => (p, s)
  | none => (s.store.length, ⟨s.store ++ [build], some s.store.length⟩)

/-- Iterate `type_query` and report the pointer returned by the last
call together with the final state. -/
def type_query_iter (build : TypeFunc) (s : SigState) : Nat → Nat × SigState
  | 0 => type_query build s
  | k + 1 =>
      let p := type_query build s
      type_query_iter build p.2 k

/-! ## Deoptimization marking (C7)

`deoptimize_caller_frame` and `is_deoptimized_caller_frame` are
declared at header lines 181-183; their bodies live in `runtime.cpp`,
which is not among the sources. -/

/-- The stack of frames, reduced to what the claim observes: for each
frame index, whether it is marked for deoptimization. -/
structure FrameWorld where
  marks : List Bool
deriving DecidableEq, Repr

/-- The execution context (`JavaThread*`): identifies the caller frame
of the context. -/
structure ExecCtx where
  callerFrame : Nat
deriving DecidableEq, Repr

/-- Modelled from the spec: `OptoRuntime::deoptimize_caller_frame(thread,
doit)` (header line 182) marks the context's caller frame for
deoptimization when `doit` is true, and otherwise changes nothing. -/
def deoptimize_caller_frame (w : FrameWorld) (ctx : ExecCtx) (doit : Bool) :
    FrameWorld :=
  if doit then ⟨w.marks.set ctx.callerFrame true⟩ else w

/-- Modelled from the spec: `OptoRuntime::is_deoptimized_caller_frame`
(header line 183) is a query over a frame's marked state; it returns
the answer together with the (unchanged) frame world, making its
side-effect-freedom explicit. -/
def is_deoptimized_caller_frame (w : FrameWorld) (ctx : ExecCtx) :
    Bool × FrameWorld :=
  (w.marks.getD ctx.callerFrame false, w)

/-! ## Rethrow dispatch (C8)

`rethrow_C(exception, thread, return_pc)` is declared at header line
180; its body lives in `runtime.cpp`, which is not among the
sources. -/

/-- Per-frame exception-handler metadata: the handler pc in that frame,
if the frame has a handler covering the raise site. -/
structure FrameInfo where
  handler : Option Nat
deriving DecidableEq, Repr

/-- Outcome of the handler search: a handler to resume at, or the
terminal default top-level handler. -/
inductive SearchOutcome where
  | handlerFound : Nat → SearchOutcome
  | defaultHandler : SearchOutcome
deriving DecidableEq, Repr

/-- Modelled from the spec: the handler search of §4.3 walks the active
frames innermost first; a frame with a handler ends the search, a frame
without one is unwound and the search repeats in the caller; exhausting
all frames forwards to the terminal default handler.  The original
`return_pc` is carried along the whole search. -/
def handler_search (frames : List FrameInfo) (return_pc : Nat) :
    SearchOutcome × Nat :=
  match frames with
  | [] => (SearchOutcome.defaultHandler, return_pc)
  | f :: rest =>
      match f.handler with
      | some hpc => (SearchOutcome.handlerFound hpc, return_pc)
      | none => handler_search rest return_pc

/-- Modelled from the spec: `OptoRuntime::rethrow_C(exception, thread,
return_pc)` (header line 180) dispatches the exception through the
handler search, passing along the return address supplied at entry. -/
def rethrow_C (_exception : Nat) (frames : List FrameInfo)
    (return_pc : Nat) : SearchOutcome × Nat :=
  handler_search frames return_pc

/-! ## Theorems -/

/-- C10: a freshly constructed `NamedCounter(n, tag)` has `count() = 0`,
`next() = nullptr`, and `tag()` equal to the given tag (`NoTag` when the
tag argument is omitted); its `name()` is null exactly when `n` was
null, and otherwise points to an independent private copy of `n`: a
fresh address distinct from the caller's, whose content equals the
original string and is unaffected by later writes to the caller's
string. -/
theorem C10_fresh_counter_state (h : StrHeap) (n : Option Nat)
    (tag : CounterTag) (a : Nat) (ha : h.valid a) :
    ((NamedCounter.init h n tag).2.count = 0 ∧
     (NamedCounter.init h n tag).2.next = none ∧
     (NamedCounter.init h n tag).2.tag = tag ∧
     (NamedCounter.initDefault h n).2.tag = CounterTag.NoTag ∧
     ((NamedCounter.init h n tag).2.name = none ↔ n = none)) ∧
    (∃ b, (NamedCounter.init h (some a) tag).2.name = some b ∧ b ≠ a ∧
      (NamedCounter.init h (some a) tag).1.read b = h.read a ∧
      ∀ s, ((NamedCounter.init h (some a) tag).1.write a s).read b =
        h.read a) := by
  constructor
  · cases n <;>
      simp [NamedCounter.init, NamedCounter.initDefault, NamedCounter.name,
        NamedCounter.next, StrHeap.strdup]
  · refine ⟨h.cells.length, ?_, ?_, ?_, ?_⟩
    · simp [NamedCounter.init, NamedCounter.name, StrHeap.strdup]
    · exact fun hba => absurd (hba ▸ ha) (lt_irrefl _)
    · simp [NamedCounter.init, StrHeap.strdup, StrHeap.read, List.getD,
        List.getElem?_concat_length]
    · intro s
      simp only [NamedCounter.init, StrHeap.strdup, StrHeap.write,
        StrHeap.read, List.getD]
      rw [List.set_append_left _ _ ha]
      have hlen : (h.cells.set a s).length = h.cells.length := by simp
      rw [← hlen]
      simp [List.getElem?_concat_length]

/-- Witness for C10 at a concrete heap holding one string, with the
counter built from that string. -/
theorem C10_fresh_counter_state_witness :
    StrHeap.valid ⟨["lockA"]⟩ 0 ∧
    (((NamedCounter.init ⟨["lockA"]⟩ (some 0) CounterTag.LockCounter).2.count = 0 ∧
      (NamedCounter.init ⟨["lockA"]⟩ (some 0) CounterTag.LockCounter).2.next = none ∧
      (NamedCounter.init ⟨["lockA"]⟩ (some 0) CounterTag.LockCounter).2.tag = CounterTag.LockCounter ∧
      (NamedCounter.initDefault ⟨["lockA"]⟩ (some 0)).2.tag = CounterTag.NoTag ∧
      ((NamedCounter.init ⟨["lockA"]⟩ (some 0) CounterTag.LockCounter).2.name = none ↔ (some 0 : Option Nat) = none)) ∧
     (∃ b, (NamedCounter.init ⟨["lockA"]⟩ (some 0) CounterTag.LockCounter).2.name = some b ∧ b ≠ 0 ∧
       (NamedCounter.init ⟨["lockA"]⟩ (some 0) CounterTag.LockCounter).1.read b = StrHeap.read ⟨["lockA"]⟩ 0 ∧
       ∀ s, ((NamedCounter.init ⟨["lockA"]⟩ (some 0) CounterTag.LockCounter).1.write 0 s).read b =
         StrHeap.read ⟨["lockA"]⟩ 0)) :=
  ⟨by simp [StrHeap.valid],
   C10_fresh_counter_state ⟨["lockA"]⟩ (some 0) CounterTag.LockCounter 0
     (by simp [StrHeap.valid])⟩

/-- C9: `stub_name(id)` is safe exactly under the precondition
`NO_STUBID < id < NUM_STUBIDS`: under it the in-function assertion
holds and the index `(int)id` into `_stub_names` is within the array
bounds; for any id outside that range (including the sentinel
`NO_STUBID = -1`) the assertion fails. -/
theorem C9_stub_name_safety (names : List String) (id : Int) :
    ((NO_STUBID < id ∧ id < NUM_STUBIDS names) →
      id.toNat < names.length ∧
      stub_name names id = some (names.getD id.toNat "")) ∧
    (¬(NO_STUBID < id ∧ id < NUM_STUBIDS names) →
      stub_name names id = none) := by
  constructor
  · rintro ⟨h1, h2⟩
    have hb : id.toNat < names.length := by
      simp only [NO_STUBID] at h1
      simp only [NUM_STUBIDS] at h2
      omega
    exact ⟨hb, by simp [stub_name, h1, h2]⟩
  · intro hcon
    simp only [stub_name, if_neg hcon]

/-- Witness for C9 at a two-entry name table: id `1` is in range and
resolves to the second name, while the sentinel `-1` fails the
assertion. -/
theorem C9_stub_name_safety_witness :
    (NO_STUBID < (1 : Int) ∧
      (1 : Int) < NUM_STUBIDS ["uncommon_trap", "exception"]) ∧
    ((1 : Int).toNat < (["uncommon_trap", "exception"] : List String).length ∧
     stub_name ["uncommon_trap", "exception"] 1 =
       some ((["uncommon_trap", "exception"] : List String).getD (1 : Int).toNat "")) ∧
    stub_name ["uncommon_trap", "exception"] (-1) = none :=
  ⟨by decide,
   (C9_stub_name_safety ["uncommon_trap", "exception"] 1).1 (by decide),
   (C9_stub_name_safety ["uncommon_trap", "exception"] (-1)).2 (by decide)⟩

/-- C1: when the declared stub names are pairwise distinct and
non-empty (the spec declares the id/name mapping one-to-one), every id
strictly between `NO_STUBID` and `NUM_STUBIDS` yields a non-empty
`stub_name(id)`, and resolving that name back gives the same id. -/
theorem C1_stub_name_roundtrip (names : List String) (hnd : names.Nodup)
    (hne : ∀ s ∈ names, s ≠ "") (id : Int)
    (h1 : NO_STUBID < id) (h2 : id < NUM_STUBIDS names) :
    ∃ s, stub_name names id = some s ∧ s ≠ "" ∧ resolve names s = id := by
  have hb : id.toNat < names.length := by
    simp only [NO_STUBID] at h1
    simp only [NUM_STUBIDS] at h2
    omega
  refine ⟨names.getD id.toNat "", by simp [stub_name, h1, h2], ?_, ?_⟩
  · have hg : names.getD id.toNat "" = names[id.toNat] :=
      List.getD_eq_getElem names "" hb
    rw [hg]
    exact hne _ (List.getElem_mem hb)
  · have hg : names.getD id.toNat "" = names[id.toNat] :=
      List.getD_eq_getElem names "" hb
    rw [hg]
    simp only [resolve, List.indexOf_getElem hnd id.toNat hb]
    simp only [NO_STUBID] at h1
    omega

/-- Witness for C1 at a two-entry name table and id `1`. -/
theorem C1_stub_name_roundtrip_witness :
    ((["uncommon_trap", "exception"] : List String).Nodup ∧
     (∀ s ∈ (["uncommon_trap", "exception"] : List String), s ≠ "") ∧
     NO_STUBID < (1 : Int) ∧
     (1 : Int) < NUM_STUBIDS ["uncommon_trap", "exception"]) ∧
    (∃ s, stub_name ["uncommon_trap", "exception"] 1 = some s ∧ s ≠ "" ∧
      resolve ["uncommon_trap", "exception"] s = 1) :=
  ⟨⟨by decide, by decide, by decide, by decide⟩,
   C1_stub_name_roundtrip ["uncommon_trap", "exception"] (by decide)
     (by decide) 1 (by decide) (by decide)⟩

/-- The `NamedCounter` constructor always leaves `_next` null. -/
theorem init_nextP_none (h : StrHeap) (n : Option Nat) (tag : CounterTag) :
    (NamedCounter.init h n tag).2.nextP = none := by
  cases n <;> rfl

/-- In a well-formed registry, following at least one `_next` link
strictly decreases the address. -/
theorem stepN_succ_lt (r : Registry) (hwf : r.wf) :
    ∀ k i j, r.stepN (k + 1) i = some j → j < i := by
  obtain ⟨hwf1, hwf2⟩ := hwf
  intro k
  induction k with
  | zero =>
      intro i j hstep
      simp only [Registry.stepN] at hstep
      rcases hn : r.nextOf i with _ | j1
      · rw [hn] at hstep; cases hstep
      · rw [hn] at hstep
        simp only [Registry.stepN] at hstep
        cases hstep
        simp only [Registry.nextOf] at hn
        rcases hc : r.counters[i]? with _ | c
        · rw [hc] at hn; cases hn
        · rw [hc] at hn
          exact hwf1 i c hc j hn
  | succ k ih =>
      intro i j hstep
      simp only [Registry.stepN] at hstep
      rcases hn : r.nextOf i with _ | j1
      · rw [hn] at hstep; cases hstep
      · rw [hn] at hstep
        have hji : j1 < i := by
          simp only [Registry.nextOf] at hn
          rcases hc : r.counters[i]? with _ | c
          · rw [hc] at hn; cases hn
          · rw [hc] at hn
            exact hwf1 i c hc j1 hn
        have := ih j1 j hstep
        omega

/-- C6: in a well-formed registry, creating a named counter passes the
`set_next` guard (the fresh link transitions from unset to set exactly
once), preserves well-formedness, leaves every existing counter — in
particular its `_next` link — untouched (never reassigned, never
removed), and following `_next` links any positive number of steps
never revisits the starting counter (the list is acyclic). -/
theorem C6_counter_links (r : Registry) (h : StrHeap) (n : Option Nat)
    (tag : CounterTag) (hwf : r.wf) :
    (∃ r2 h2 addr, new_named_counter r h n tag = some (r2, h2, addr) ∧
      r2.wf ∧
      (∀ i, i < r.counters.length → r2.counters[i]? = r.counters[i]?)) ∧
    (∀ i k, r.stepN (k + 1) i ≠ some i) := by
  constructor
  · obtain ⟨hwf1, hwf2⟩ := hwf
    have hnx := init_nextP_none h n tag
    refine ⟨⟨r.counters ++
              [{ (NamedCounter.init h n tag).2 with nextP := r.head }],
            some r.counters.length⟩,
           (NamedCounter.init h n tag).1, r.counters.length, ?_, ?_, ?_⟩
    · simp [new_named_counter, NamedCounter.set_next, hnx]
    · constructor
      · intro i c hc j hj
        rcases Nat.lt_trichotomy i r.counters.length with hi | hi | hi
        · rw [List.getElem?_append_left hi] at hc
          exact hwf1 i c hc j hj
        · subst hi
          rw [List.getElem?_concat_length] at hc
          cases hc
          simp only at hj
          exact hwf2 j hj
        · have hnone : (r.counters ++
              [{ (NamedCounter.init h n tag).2 with nextP := r.head }])[i]? =
                none := by
            apply List.getElem?_eq_none
            simp only [List.length_append, List.length_singleton]
            omega
          rw [hnone] at hc
          cases hc
      · intro hd hhd
        cases hhd
        simp only [List.length_append, List.length_singleton]
        omega
    · intro i hi
      exact List.getElem?_append_left hi
  · intro i k hcontra
    exact absurd (stepN_succ_lt r hwf k i i hcontra) (lt_irrefl i)

/-- Witness for C6 at the empty registry. -/
theorem C6_counter_links_witness :
    Registry.emptyReg.wf ∧
    ((∃ r2 h2 addr,
        new_named_counter Registry.emptyReg ⟨[]⟩ none CounterTag.NoTag =
          some (r2, h2, addr) ∧
        r2.wf ∧
        (∀ i, i < Registry.emptyReg.counters.length →
          r2.counters[i]? = Registry.emptyReg.counters[i]?)) ∧
     (∀ i k, Registry.emptyReg.stepN (k + 1) i ≠ some i)) :=
  ⟨⟨fun i c hc => by simp [Registry.emptyReg] at hc,
    fun hd hhd => by simp [Registry.emptyReg] at hhd⟩,
   C6_counter_links Registry.emptyReg ⟨[]⟩ none CounterTag.NoTag
     ⟨fun i c hc => by simp [Registry.emptyReg] at hc,
      fun hd hhd => by simp [Registry.emptyReg] at hhd⟩⟩

/-- Every sub-array at depth `i` of the array allocated for dimension
lengths `dims` is a node of exactly `dims[i]` children. -/
theorem allAtLevel_multi_allocate (dims : List Nat) :
    ∀ i, i < dims.length → ∀ b ∈ allAtLevel (multi_allocate dims) i,
      ∃ xs, b = JArray.node xs ∧ xs.length = dims.getD i 0 := by
  induction dims with
  | nil =>
      intro i hi
      simp at hi
  | cons n rest ih =>
      intro i hi b hb
      cases i with
      | zero =>
          simp only [multi_allocate, allAtLevel, List.mem_singleton] at hb
          subst hb
          exact ⟨_, rfl, by simp⟩
      | succ i =>
          simp only [multi_allocate, allAtLevel] at hb
          rw [List.mem_flatten] at hb
          obtain ⟨l, hl, hbl⟩ := hb
          rw [List.mem_map] at hl
          obtain ⟨x, hx, rfl⟩ := hl
          have hxe := List.eq_of_mem_replicate hx
          subst hxe
          have hlen : i < rest.length := by simpa using hi
          obtain ⟨xs, hxs, hxslen⟩ := ih i hlen b hbl
          exact ⟨xs, hxs, by simpa using hxslen⟩

/-- C2: the multi-dimensional allocators — arities 2-5 are instances of
the N-ary form — raise a managed exception and leave the heap unchanged
when any dimension length is negative, and for all-nonnegative lengths
allocate an array whose length at nesting level `i` equals the `i`-th
input length, for every `i`. -/
theorem C2_multianewarray (dims : List Int) (h : Heap)
    (l1 l2 l3 l4 l5 : Int) :
    ((∃ d ∈ dims, d < 0) →
      multianewarrayN_C dims h =
        (Except.error ManagedException.negativeArraySize, h)) ∧
    ((∀ d ∈ dims, 0 ≤ d) →
      ∃ a, multianewarrayN_C dims h = (Except.ok a, ⟨h.allocated + a.size⟩) ∧
        ∀ i, i < dims.length → ∀ b ∈ allAtLevel a i,
          ∃ xs, b = JArray.node xs ∧ (xs.length : Int) = dims.getD i 0) ∧
    (multianewarray2_C l1 l2 h = multianewarrayN_C [l1, l2] h ∧
     multianewarray3_C l1 l2 l3 h = multianewarrayN_C [l1, l2, l3] h ∧
     multianewarray4_C l1 l2 l3 l4 h = multianewarrayN_C [l1, l2, l3, l4] h ∧
     multianewarray5_C l1 l2 l3 l4 l5 h =
       multianewarrayN_C [l1, l2, l3, l4, l5] h) := by
  refine ⟨?_, ?_, rfl, rfl, rfl, rfl⟩
  · intro hneg
    have hany : dims.any (fun d => d < 0) = true := by
      rw [List.any_eq_true]
      obtain ⟨d, hd, hdneg⟩ := hneg
      exact ⟨d, hd, by simpa using hdneg⟩
    simp [multianewarrayN_C, hany]
  · intro hpos
    have hany : dims.any (fun d => d < 0) = false := by
      rw [List.any_eq_false]
      intro d hd
      simpa using hpos d hd
    refine ⟨multi_allocate (dims.map Int.toNat), by simp [multianewarrayN_C, hany], ?_⟩
    intro i hi b hb
    have hlen : i < (dims.map Int.toNat).length := by simpa using hi
    obtain ⟨xs, hxs, hxslen⟩ :=
      allAtLevel_multi_allocate (dims.map Int.toNat) i hlen b hb
    refine ⟨xs, hxs, ?_⟩
    have hget : (dims.map Int.toNat).getD i 0 = (dims.getD i 0).toNat := by
      rw [List.getD_eq_getElem _ _ hlen, List.getD_eq_getElem _ _ hi]
      simp
    have hmem : dims.getD i 0 ∈ dims := by
      rw [List.getD_eq_getElem _ _ hi]
      exact List.getElem_mem hi
    have hge := hpos _ hmem
    rw [hxslen, hget]
    omega

/-- Witness for C2 at dimensions `[2, -3]` (negative case) and `[2, 3]`
(positive case) on an empty heap. -/
theorem C2_multianewarray_witness :
    ((∃ d ∈ ([2, -3] : List Int), d < 0) ∧
      multianewarrayN_C [2, -3] ⟨0⟩ =
        (Except.error ManagedException.negativeArraySize, ⟨0⟩)) ∧
    ((∀ d ∈ ([2, 3] : List Int), 0 ≤ d) ∧
      ∃ a, multianewarrayN_C [2, 3] ⟨0⟩ =
            (Except.ok a, ⟨Heap.allocated ⟨0⟩ + a.size⟩) ∧
        ∀ i, i < ([2, 3] : List Int).length → ∀ b ∈ allAtLevel a i,
          ∃ xs, b = JArray.node xs ∧
            (xs.length : Int) = ([2, 3] : List Int).getD i 0) :=
  ⟨⟨by decide,
    (C2_multianewarray [2, -3] ⟨0⟩ 0 0 0 0 0).1 (by decide)⟩,
   ⟨by decide,
    (C2_multianewarray [2, 3] ⟨0⟩ 0 0 0 0 0).2.1 (by decide)⟩⟩

/-- Stub installation succeeds exactly when the emission environment
yields an address for every requested stub, regardless of the entry
table it starts from. -/
theorem installAll_true_iff (env : Nat → Option Nat) (ids : List Nat) :
    ∀ es, (installAll env es ids).1 = true ↔
      ∀ id ∈ ids, (env id).isSome := by
  induction ids with
  | nil =>
      intro es
      simp [installAll]
  | cons id rest ih =>
      intro es
      rcases henv : env id with _ | a
      · simp [installAll, henv]
      · simp only [installAll, henv]
        rw [ih]
        constructor
        · intro hall j hj
          rcases List.mem_cons.mp hj with hj | hj
          · subst hj
            simp [henv]
          · exact hall j hj
        · intro hall j hj
          exact hall j (List.mem_cons_of_mem _ hj)

/-- C3: `generate` returns true exactly when every runtime stub was
generated successfully, and false exactly when some stub failed to
generate (no partial success is ever reported as success); the failure
is a boolean initialization result, distinct from the managed-exception
channel of the runtime helpers. -/
theorem C3_generate_success (env : Nat → Option Nat) (ids : List Nat) :
    ((generate env ids StubTable.initTable).1 = true ↔
      ∀ id ∈ ids, (env id).isSome) ∧
    ((generate env ids StubTable.initTable).1 = false ↔
      ∃ id ∈ ids, env id = none) := by
  have hbase : (generate env ids StubTable.initTable).1 =
      (installAll env StubTable.initTable.entries ids).1 := by
    simp [generate, StubTable.initTable]
  constructor
  · rw [hbase]
    exact installAll_true_iff env ids StubTable.initTable.entries
  · rw [hbase]
    rw [Bool.eq_false_iff, Ne, installAll_true_iff env ids]
    push_neg
    constructor
    · rintro ⟨id, hid, hnone⟩
      exact ⟨id, hid, Option.not_isSome_iff_eq_none.mp hnone⟩
    · rintro ⟨id, hid, hnone⟩
      exact ⟨id, hid, Option.not_isSome_iff_eq_none.mpr hnone⟩

/-- C4: once `generate` has run successfully, invoking it again — with
any environment and any stub list — is a no-op that returns success; in
particular every stub entry point that has been installed keeps its
value, and no stub id ever receives a second, different entry point. -/
theorem C4_generate_once (env env2 : Nat → Option Nat)
    (ids ids2 : List Nat) (st : StubTable)
    (hgen : (generate env ids st).1 = true) :
    generate env2 ids2 (generate env ids st).2 =
      (true, (generate env ids st).2) ∧
    (∀ id a, (generate env ids st).2.entries id = some a →
      (generate env2 ids2 (generate env ids st).2).2.entries id = some a) := by
  have hflag : ((generate env ids st).2).generated = true := by
    by_cases hg : st.generated = true
    · simp [generate, hg]
    · simp only [generate, if_neg hg] at hgen ⊢
      exact hgen
  have hnoop : ∀ s1 : StubTable, s1.generated = true →
      generate env2 ids2 s1 = (true, s1) := by
    intro s1 h1
    simp [generate, h1]
  exact ⟨hnoop _ hflag, fun id a ha => by rw [hnoop _ hflag]; exact ha⟩

/-- Witness for C4: a successful generation of one stub followed by a
second call. -/
theorem C4_generate_once_witness :
    (generate (fun _ => some 7) [0] StubTable.initTable).1 = true ∧
    (generate (fun _ => none) []
        (generate (fun _ => some 7) [0] StubTable.initTable).2 =
      (true, (generate (fun _ => some 7) [0] StubTable.initTable).2) ∧
     (∀ id a,
        (generate (fun _ => some 7) [0] StubTable.initTable).2.entries id =
          some a →
        (generate (fun _ => none) []
            (generate (fun _ => some 7) [0] StubTable.initTable).2).2.entries
            id = some a)) :=
  ⟨rfl,
   C4_generate_once (fun _ => some 7) (fun _ => none) [0] []
     StubTable.initTable rfl⟩

/-- One signature query from the state left by a previous query changes
nothing and returns the same pointer. -/
theorem type_query_stable (build : TypeFunc) (s : SigState) :
    type_query build (type_query build s).2 = type_query build s := by
  rcases hc : s.cache with _ | p <;> simp [type_query, hc]

/-- C5: a signature query is idempotent: however many times it is
repeated, the pointer returned and the resulting state are exactly
those of the first call (reference-identical cached object, state never
mutated again), and the cached object is the constructed signature
itself, structurally unchanged. -/
theorem C5_type_query_memoized (build : TypeFunc) (k : Nat) (s : SigState) :
    type_query_iter build s k = type_query build s ∧
    ((type_query build SigState.initSig).2).store[
        (type_query build SigState.initSig).1]? = some build := by
  constructor
  · induction k generalizing s with
    | zero => rfl
    | succ k ih =>
        show type_query_iter build (type_query build s).2 k = type_query build s
        rw [ih (type_query build s).2]
        exact type_query_stable build s
  · rfl

/-- C7: marking the caller frame of a context for deoptimization makes
every subsequent query observe it as deoptimized, leaves every other
frame unchanged, and the query itself returns the frame world
untouched (it is side-effect free). -/
theorem C7_deopt_caller_frame (w : FrameWorld) (ctx ctx2 : ExecCtx)
    (hv : ctx.callerFrame < w.marks.length) :
    (is_deoptimized_caller_frame (deoptimize_caller_frame w ctx true) ctx).1 =
      true ∧
    (∀ j, j ≠ ctx.callerFrame →
      (deoptimize_caller_frame w ctx true).marks.getD j false =
        w.marks.getD j false) ∧
    (is_deoptimized_caller_frame w ctx2).2 = w ∧
    deoptimize_caller_frame w ctx false = w := by
  refine ⟨?_, ?_, rfl, rfl⟩
  · simp only [deoptimize_caller_frame, is_deoptimized_caller_frame, if_pos]
    rw [List.getD_eq_getElem _ _ (by simpa using hv)]
    simp [List.getElem_set_self]
  · intro j hj
    simp only [deoptimize_caller_frame, if_pos, List.getD_eq_getElem?_getD]
    rw [List.getElem?_set_ne (fun he => hj he.symm)]

/-- Witness for C7 on a two-frame world: marking frame 0 is observed,
frame 1 is untouched. -/
theorem C7_deopt_caller_frame_witness :
    (⟨0⟩ : ExecCtx).callerFrame < (⟨[false, false]⟩ : FrameWorld).marks.length ∧
    ((is_deoptimized_caller_frame
        (deoptimize_caller_frame ⟨[false, false]⟩ ⟨0⟩ true) ⟨0⟩).1 = true ∧
     (∀ j, j ≠ (⟨0⟩ : ExecCtx).callerFrame →
       (deoptimize_caller_frame ⟨[false, false]⟩ ⟨0⟩ true).marks.getD j false =
         (⟨[false, false]⟩ : FrameWorld).marks.getD j false) ∧
     (is_deoptimized_caller_frame ⟨[false, false]⟩ ⟨1⟩).2 = ⟨[false, false]⟩ ∧
     deoptimize_caller_frame ⟨[false, false]⟩ ⟨0⟩ false = ⟨[false, false]⟩) :=
  ⟨by decide, C7_deopt_caller_frame ⟨[false, false]⟩ ⟨0⟩ ⟨1⟩ (by decide)⟩

/-- C8: rethrow dispatch preserves the original return address across
the whole handler search: whatever the outcome (handler found or the
terminal default handler), the return pc at completion is the one
supplied at entry. -/
theorem C8_rethrow_preserves_return_pc (exc : Nat) (frames : List FrameInfo)
    (return_pc : Nat) :
    (rethrow_C exc frames return_pc).2 = return_pc := by
  unfold rethrow_C
  induction frames with
  | nil => rfl
  | cons f rest ih =>
      simp only [handler_search]
      rcases f.handler with _ | hpc
      · exact ih
      · rfl

end OptoRuntime
